import Mathlib

/-!
Verification of the install-orchestration engine (ssh/dispatcher.py and
dcos_installer/state.py): a shallow embedding of the Python source into Lean,
followed by theorems settling the spec's claims about it.

Python strings are modelled as `List Char`, Python exceptions as an explicit
error type, and the mutable `InstallStatus` object as explicit state passing.
-/

/-- Python strings, modelled as lists of characters. -/
abbrev Str := List Char

/-- The Python exception kinds raised by the embedded code. -/
inductive PyErr where
  /-- a failing `assert` statement -/
  | assertionError
  /-- attribute assignment on an object that forbids it (e.g. a `namedtuple`) -/
  | attributeError
  /-- Python `KeyError`, e.g. from `str.format` with a missing keyword -/
  | keyError
  /-- Python `ValueError`, e.g. from `int()` on a non-numeric string -/
  | valueError
  /-- Python `TypeError`, e.g. JSON-serializing a `set` -/
  | typeError
  /-- a `raise Exception(...)` statement -/
  | exception
  deriving DecidableEq

/-- Python `s.split(sep)` for a one-character separator `sep`:
`"a:b".split(':') == ['a','b']`, `"".split(':') == ['']`. This is exactly
`List.splitOn`: split at every occurrence of `sep`, separators not kept,
empty pieces kept. Never returns `[]`. -/
def pySplit (sep : Char) (s : Str) : List Str :=
  s.splitOn sep

/-- Python `sep.join(xs)` for a one-character `sep`. -/
def pyJoin (sep : Char) (xs : List Str) : Str :=
  List.intercalate [sep] xs

/-- Python `int(s)` restricted to the unsigned decimal strings this code feeds
it (a port number). Real `int()` additionally strips whitespace and accepts a
sign, which the embedded call sites never exercise; on anything else it raises
`ValueError`, modelled by `none`. -/
def pyInt? (s : Str) : Option Int :=
  if s ≠ [] ∧ s.all Char.isDigit then
    some (s.foldl (fun acc c => acc * 10 + (c.toNat - 48)) 0 : Nat)
  else
    none

deriving instance DecidableEq for Except

/-- The record returned by `parse_ip`. -/
structure IpRecord where
  ip : Str
  port : Option Int
  deriving DecidableEq

/-- Embeds `ssh/dispatcher.py parse_ip`: split on `':'`; two pieces give
host and integer port, one piece gives the bare host with no port, anything
else raises `ValueError`. -/
def parse_ip (ip : Str) : Except PyErr IpRecord :=
  match pySplit ':' ip with
  | [h, p] =>
    match pyInt? p with
    | some n => .ok ⟨h, some n⟩
    | none => .error .valueError
  | [_] => .ok ⟨ip, none⟩
  | _ => .error .valueError

/-- A Python value passed as the `tags` argument: the source builds tags either
as a dict literal (`\x7b'role': 'master'\x7d`) or — for public agents — as a
set literal (`\x7b'role', 'slave_public'\x7d`), so the embedding keeps the
runtime-type distinction that `Node.__init__`'s `isinstance` assert checks. -/
inductive PyTags where
  | dict : List (Str × Str) → PyTags
  | set : List Str → PyTags
  deriving DecidableEq

/-- Whether the Python value is a dict (`isinstance(tags, dict)`). -/
def PyTags.isDict : PyTags → Bool
  | .dict _ => true
  | .set _ => false

/-- Lookup in a Python dict modelled as an association list. -/
def pyGet {α : Type} (d : List (Str × α)) (k : Str) : Option α :=
  match d with
  | [] => none
  | (k', v) :: rest => if k' = k then some v else pyGet rest k

/-- Embeds `ssh/dispatcher.py Node`. The constructor stores the tags dict and the
parsed address parts (`self.ip`, `self.port`). -/
structure Node where
  tags : List (Str × Str)
  ip : Str
  port : Option Int
  deriving DecidableEq

/-- Embeds `Node.__init__(host, tags)`: `assert isinstance(tags, dict)`, then
`parse_ip(host)` (which may itself raise). -/
def Node.make (host : Str) (tags : PyTags) : Except PyErr Node :=
  match tags with
  | .set _ => .error .assertionError
  | .dict d =>
    match parse_ip host with
    | .ok r => .ok ⟨d, r.ip, r.port⟩
    | .error e => .error e

/-- The character `\x7b`. -/
def lbrace : Char := '\x7b'

/-- The character `\x7d`. -/
def rbrace : Char := '\x7d'

/-- Python `arg.format(**tags)` for the templates this code uses: literal
characters and simple `\x7bname\x7d` replacement fields. A field whose name is
missing from `tags` raises `KeyError`; an unterminated field or a stray closing
brace raises `ValueError`. (Doubled-brace escapes and format specs, which the
call sites never use, are not modelled.) The first argument is the state of the
scan: `none` outside a replacement field, `some acc` inside one with the name
characters read so far. -/
def pyFormatAux (tags : List (Str × Str)) : Option Str → Str → Except PyErr Str
  | none, [] => .ok []
  | some _, [] => .error .valueError
  | none, c :: rest =>
    if c = lbrace then pyFormatAux tags (some []) rest
    else if c = rbrace then .error .valueError
    else (pyFormatAux tags none rest).map (c :: ·)
  | some acc, c :: rest =>
    if c = rbrace then
      match pyGet tags acc with
      | some v => (pyFormatAux tags none rest).map (v ++ ·)
      | none => .error .keyError
    else pyFormatAux tags (some (acc ++ [c])) rest

/-- Python `arg.format(**tags)`. -/
def pyFormat (tags : List (Str × Str)) (arg : Str) : Except PyErr Str :=
  pyFormatAux tags none arg

/-- Embeds `ssh/dispatcher.py CommandBuilder` (the fields `_make_ssh` reads). -/
structure CommandBuilder where
  default_user : Str
  default_port : Option Int
  key_path : Str
  extra_options : List Str
  deriving DecidableEq

/-- Embeds `CommandBuilder._make_ssh`: when `parameterized`, every argument is
interpolated with `arg.format(**node.tags)` (a raised `KeyError`/`ValueError`
propagates); the argv is `['ssh'] + base_args + [user@ip] + cmd`. -/
def CommandBuilder.make_ssh (b : CommandBuilder) (node : Node) (base_args : List Str)
    (cmd : List Str) (parameterized : Bool) : Except PyErr (List Str) := do
  let cmd ← if parameterized then cmd.mapM (pyFormat node.tags) else pure cmd
  pure (("ssh").toList :: base_args ++ [b.default_user ++ '@' :: node.ip] ++ cmd)

/-- The prefix matched against each piece of stderr in `Dispatcher._run_cmd`:
`line.startswith('Warning: Permanently added')`. -/
def warningPfx : Str := ("Warning: Permanently added").toList

/-- The stderr post-processing in `Dispatcher._run_cmd`: split the captured
stderr on `'\r'`, drop every piece that starts with the host-key warning
prefix, and join the survivors with `'\n'`. -/
def strip_host_key_warnings (stderr : Str) : Str :=
  let err_arry := pySplit '\r' stderr
  pyJoin '\n' (err_arry.filter (fun line => ¬ warningPfx.isPrefixOf line))

/-- The `"stderr"` field of the per-host result in `Dispatcher._run_cmd`:
the filtered stderr, split on `'\n'`. -/
def result_stderr (stderr : Str) : List Str :=
  pySplit '\n' (strip_host_key_warnings stderr)

/-- Embeds `dcos_installer/state.py pre_marker`. -/
def pre_marker : Str := ("_pre").toList

/-- Embeds `dcos_installer/state.py post_marker`. -/
def post_marker : Str := ("_post").toList

/-- Embeds `dcos_installer/state.py HostState`, a `collections.namedtuple`. Being a
tuple subclass, its instances are immutable: assigning to a field at runtime
raises `AttributeError`. -/
structure HostState where
  stage : Str
  step : Str
  skip : Bool
  tags : PyTags
  node : Node
  deriving DecidableEq

/-- One element of the `'hosts'` list that `checkpoint` serializes. -/
structure HostJson where
  id : Str
  stage : Str
  step : Str
  skip : Bool
  tags : PyTags
  deriving DecidableEq

/-- The JSON document `checkpoint` writes and `_load` reads. -/
structure RunJson where
  run_mode : Str
  current_stage : Option Str
  run_id : Option Str
  hosts : List HostJson
  deriving DecidableEq

/-- The mutable fields of `dcos_installer/state.py InstallStatus`.
`_hosts` is a Python dict (insertion-ordered association list). The content of
the file at `_json_dump_filename` is passed and returned explicitly as an
`Option RunJson` (`none` = the file does not exist). -/
structure InstallStatus where
  json_dump_filename : Str
  run_mode : Str
  hosts : List (Str × HostState)
  current_stage : Option Str
  run_id : Option Str
  deriving DecidableEq

/-- Python dict assignment `d[k] = v`: overwrite in place when the key exists,
otherwise append. -/
def pyDictSet {α : Type} (d : List (Str × α)) (k : Str) (v : α) : List (Str × α) :=
  if (pyGet d k).isSome then
    d.map (fun p => if p.1 = k then (k, v) else p)
  else
    d ++ [(k, v)]

/-- Embeds `InstallStatus.checkpoint`: build the JSON document from the in-memory
record. `pkgpanda.util.write_json` is not under `src/`; modelled from the
spec: "atomically serializes the full RunRecord to durable storage" — the
returned `RunJson` is the new file content. JSON cannot serialize a Python
`set`, so a `set`-valued tags field would raise `TypeError`. -/
def InstallStatus.checkpoint (st : InstallStatus) : Except PyErr RunJson :=
  if st.hosts.all (fun p => p.2.tags.isDict) then
    .ok { run_mode := st.run_mode, current_stage := st.current_stage,
          run_id := st.run_id,
          hosts := st.hosts.map (fun p => ⟨p.1, p.2.stage, p.2.step, p.2.skip, p.2.tags⟩) }
  else
    .error .typeError

/-- Embeds `InstallStatus._load` applied to the parsed file content `j`
(`pkgpanda.util.load_json` is not under `src/`; modelled from the spec as
returning the persisted document): check `run_mode`, adopt or check `run_id`,
take `current_stage`, and rebuild every `HostState` (constructing a fresh
`Node` from the persisted id and tags). -/
def InstallStatus.load_from (st : InstallStatus) (j : RunJson) : Except PyErr InstallStatus :=
  if j.run_mode ≠ st.run_mode then
    .error .exception
  else
    match (match st.run_id with
      | none => Except.ok j.run_id
      | some r => if j.run_id = some r then Except.ok (some r) else Except.error PyErr.exception) with
    | .error e => .error e
    | .ok rid =>
      match j.hosts.foldlM
          (fun acc h => do
            let node ← Node.make h.id h.tags
            pure (pyDictSet acc h.id ⟨h.stage, h.step, h.skip, h.tags, node⟩))
          st.hosts with
      | .error e => .error e
      | .ok hosts =>
        .ok { st with run_id := rid, current_stage := j.current_stage, hosts := hosts }

/-- Embeds `InstallStatus.__init__(json_dump_filename, run_mode)`: start with an empty
record and `_load` when a file already exists at the dump path. -/
def InstallStatus.make (filename run_mode : Str) (fs : Option RunJson) :
    Except PyErr InstallStatus :=
  let st : InstallStatus := ⟨filename, run_mode, [], none, none⟩
  match fs with
  | none => .ok st
  | some j => st.load_from j

/-- The `add_all(host_list, tags)` closure inside `InstallStatus.initialise`:
for each host id, `assert host_id not in self._hosts`, construct the `Node`
(whose constructor may raise), and insert
`HostState(pre_marker, pre_marker, False, tags, node)`. The returned
`InstallStatus` is the object state when the call returns or raises, so a
failure in the middle keeps the hosts already added. -/
def InstallStatus.add_all (st : InstallStatus) (host_list : List Str) (tags : PyTags) :
    Option PyErr × InstallStatus :=
  match host_list with
  | [] => (none, st)
  | host_id :: rest =>
    if (pyGet st.hosts host_id).isSome then
      (some .assertionError, st)
    else
      match Node.make host_id tags with
      | .error e => (some e, st)
      | .ok node =>
        InstallStatus.add_all
          { st with hosts := st.hosts ++ [(host_id, ⟨pre_marker, pre_marker, false, tags, node⟩)] }
          rest tags

/-- Embeds `InstallStatus.initialize(master_list, agent_list, agent_public_list, path)`
(the `path` parameter of the source is never read in the body and is omitted;
`uuid.uuid4().hex` is modelled as the input token `fresh_id`). Raise when the
state file already exists; otherwise `add_all` the three host groups — note the
source passes the *set* literal `\x7b'role', 'slave_public'\x7d` as the public
agents' tags where the other two groups get dict literals — then set
`_current_stage`/`_run_id` and `checkpoint`. The result is the raised error if
any (`none` on success), the object state, and the file content. -/
def InstallStatus.initialise (st : InstallStatus) (fs : Option RunJson)
    (master_list agent_list agent_public_list : List Str) (fresh_id : Str) :
    Option PyErr × InstallStatus × Option RunJson :=
  if fs.isSome then
    (some .exception, st, fs)
  else
    match st.add_all master_list (.dict [(("role").toList, ("master").toList)]) with
    | (some e, st1) => (some e, st1, fs)
    | (none, st1) =>
      match st1.add_all agent_list (.dict [(("role").toList, ("slave").toList)]) with
      | (some e, st2) => (some e, st2, fs)
      | (none, st2) =>
        match st2.add_all agent_public_list (.set [("role").toList, ("slave_public").toList]) with
        | (some e, st3) => (some e, st3, fs)
        | (none, st3) =>
          let st4 := { st3 with current_stage := some pre_marker, run_id := some fresh_id }
          match st4.checkpoint with
          | .error e => (some e, st4, fs)
          | .ok j => (none, st4, some j)

/-- Embeds `InstallStatus.update(host_id, stage, step)`: `assert host_id in
self._hosts`, then `self._hosts[host_id].stage = stage`. `HostState` is a
`namedtuple`, so that field assignment raises `AttributeError` before any
mutation takes place. -/
def InstallStatus.update (st : InstallStatus) (host_id _stage _step : Str) :
    Option PyErr × InstallStatus :=
  match pyGet st.hosts host_id with
  | none => (some .assertionError, st)
  | some _ => (some .attributeError, st)

/-- Embeds `InstallStatus.mark_skip(host_id, skip_state)`: `assert host_id in
self._hosts`; return unchanged when the skip flag already has the requested
value; raise when the host's stage is not the current stage; otherwise execute
`host.skip = skip_state`, which raises `AttributeError` because `HostState` is
a `namedtuple`. -/
def InstallStatus.mark_skip (st : InstallStatus) (host_id : Str) (skip_state : Bool) :
    Option PyErr × InstallStatus :=
  match pyGet st.hosts host_id with
  | none => (some .assertionError, st)
  | some host =>
    if host.skip = skip_state then
      (none, st)
    else if some host.stage ≠ st.current_stage then
      (some .exception, st)
    else
      (some .attributeError, st)

/-- Embeds `InstallStatus.get_active_nodes`: iterate over all host states appending
each `state.node`; the source's `if state.skip: pass` has no effect, so every
node is appended regardless of the skip flag. -/
def InstallStatus.get_active_nodes (st : InstallStatus) : List Node :=
  st.hosts.foldl (fun active_nodes p => active_nodes ++ [p.2.node]) []

/-- An argument template for a `parameterized` command: the alternation of
literal segments and `\x7bname\x7d` replacement fields that
`CommandBuilder._make_ssh` hands to `str.format`. -/
inductive Tpl where
  | lit : Str → Tpl
  | ph : Str → Tpl
  deriving DecidableEq

/-- The concrete argument string a template denotes. -/
def renderTpl : List Tpl → Str
  | [] => []
  | .lit s :: rest => s ++ renderTpl rest
  | .ph n :: rest => lbrace :: (n ++ rbrace :: renderTpl rest)

/-- The tag names a template references. -/
def tplNames : List Tpl → List Str
  | [] => []
  | .lit _ :: rest => tplNames rest
  | .ph n :: rest => n :: tplNames rest

/-- A string with no brace characters. -/
def braceFree (s : Str) : Bool :=
  s.all (fun c => c ≠ lbrace ∧ c ≠ rbrace)

/-- Well-formed template: literals and field names contain no braces. -/
def tplOk : List Tpl → Bool
  | [] => true
  | .lit s :: rest => braceFree s && tplOk rest
  | .ph n :: rest => braceFree n && tplOk rest

/-- The interpolation of a template against a tags dict (missing names yield
`[]`, a case the theorems exclude). -/
def interpTpl (tags : List (Str × Str)) : List Tpl → Str
  | [] => []
  | .lit s :: rest => s ++ interpTpl tags rest
  | .ph n :: rest => (pyGet tags n).getD [] ++ interpTpl tags rest

/-- Modelled from the spec: one host's chain as the dispatcher tracks it while
running — the host, the actions in the order they were appended to the Chain,
the trace of actions executed so far, and the actions still to run.
`Dispatcher.dispatch` in `src/ssh/dispatcher.py` is `raise
NotImplementedError()`; this transition system embeds the scheduling contract
of spec §4.2/§5 (bounded worker pool, strictly in-order execution within one
host's chain). -/
structure RunningChain (α : Type) where
  host : Str
  orig : List α
  trace : List α
  remaining : List α

/-- Modelled from the spec: the dispatcher's scheduling state — chains not yet
started, chains currently executing, and finished chains with their executed
trace. -/
structure DispatchState (α : Type) where
  pending : List (Str × List α)
  running : List (RunningChain α)
  finished : List (Str × List α × List α)

/-- Modelled from the spec: the initial dispatch state for a set of
host/chain pairs. -/
def dispatchInit {α : Type} (chains : List (Str × List α)) : DispatchState α :=
  ⟨chains, [], []⟩

/-- Modelled from the spec: one scheduling step of the dispatcher with
parallelism bound `P`. A pending chain may start only while fewer than `P`
chains are running; a running chain executes its first remaining action
(appending it to its trace); a running chain with nothing remaining finishes,
freeing its slot. -/
inductive DispatchStep {α : Type} (P : Nat) : DispatchState α → DispatchState α → Prop
  | start {s : DispatchState α} (h : Str) (as : List α) (rest : List (Str × List α)) :
      s.running.length < P →
      s.pending = (h, as) :: rest →
      DispatchStep P s ⟨rest, s.running ++ [⟨h, as, [], as⟩], s.finished⟩
  | exec {s : DispatchState α} (l r : List (RunningChain α)) (c : RunningChain α)
      (a : α) (rem : List α) :
      s.running = l ++ c :: r →
      c.remaining = a :: rem →
      DispatchStep P s
        ⟨s.pending, l ++ ⟨c.host, c.orig, c.trace ++ [a], rem⟩ :: r, s.finished⟩
  | finish {s : DispatchState α} (l r : List (RunningChain α)) (c : RunningChain α) :
      s.running = l ++ c :: r →
      c.remaining = [] →
      DispatchStep P s ⟨s.pending, l ++ r, s.finished ++ [(c.host, c.orig, c.trace)]⟩

/-- Modelled from the spec: the states a dispatch of `chains` with parallelism
`P` can reach. -/
def DispatchReachable {α : Type} (P : Nat) (chains : List (Str × List α))
    (s : DispatchState α) : Prop :=
  Relation.ReflTransGen (DispatchStep P) (dispatchInit chains) s

/-- A sample host identifier. -/
def host1 : Str := ("10.0.0.1").toList

/-- Another sample host identifier. -/
def host2 : Str := ("10.0.0.2").toList

/-- The node of `host1`. -/
def node1 : Node := ⟨[(("role").toList, ("master").toList)], host1, none⟩

/-- The node of `host2`. -/
def node2 : Node := ⟨[(("role").toList, ("slave").toList)], host2, none⟩

/-- A store holding two hosts at the current stage `pre_marker`: `host1` is
marked skipped, `host2` is not. -/
def sample_store : InstallStatus :=
  ⟨("genconf/state.json").toList, ("cli").toList,
   [(host1, ⟨pre_marker, pre_marker, true, .dict [(("role").toList, ("master").toList)], node1⟩),
    (host2, ⟨pre_marker, pre_marker, false, .dict [(("role").toList, ("slave").toList)], node2⟩)],
   some pre_marker, some ("f00d").toList⟩

/-- A fresh store (no hosts, no file yet) used to exercise the first install. -/
def fresh_store : InstallStatus :=
  ⟨("genconf/state.json").toList, ("cli").toList, [], none, none⟩

/-- A captured stderr whose two `'\n'`-separated lines are a host-key warning
followed by a real error line. -/
def c7_input : Str := ("Warning: Permanently added 'h'\nerr").toList

/-- Invariant preserved by every dispatcher scheduling step: at most `P`
chains run at once, every running chain's executed trace followed by its
remaining actions is exactly its original action list, and every finished
chain executed exactly its original action list. -/
def dispatchInv {α : Type} (P : Nat) (s : DispatchState α) : Prop :=
  s.running.length ≤ P ∧
  (∀ c ∈ s.running, c.trace ++ c.remaining = c.orig) ∧
  (∀ f ∈ s.finished, f.2.2 = f.2.1)

/-- Hosts dicts produced by `add_all`: keys are pairwise distinct and every
stored node is the one `Node.__init__` builds from the stored id and tags. -/
def goodHosts (hs : List (Str × HostState)) : Prop :=
  hs.Pairwise (fun p q => p.1 ≠ q.1) ∧
  ∀ p ∈ hs, Node.make p.1 p.2.tags = .ok p.2.node

/-! ## Helper lemmas about the Python string primitives -/

theorem pySplit_no_sep (sep : Char) (s : Str) (h : sep ∉ s) : pySplit sep s = [s] := by
  refine List.splitOnP_eq_single _ _ ?_
  intro y hy
  simp only [beq_iff_eq]
  rintro rfl
  exact h hy

theorem pySplit_first (sep : Char) (h t : Str) (hh : sep ∉ h) :
    pySplit sep (h ++ sep :: t) = h :: pySplit sep t := by
  refine List.splitOnP_first _ _ ?_ sep (by simp) t
  intro y hy
  simp only [beq_iff_eq]
  rintro rfl
  exact hh hy

theorem pySplit_pyJoin (sep : Char) (xs : List Str) (hx : ∀ l ∈ xs, sep ∉ l)
    (hne : xs ≠ []) : pySplit sep (pyJoin sep xs) = xs :=
  List.splitOn_intercalate xs sep hx hne

theorem pySplit_length (sep : Char) (s : Str) :
    (pySplit sep s).length = s.count sep + 1 := by
  induction s with
  | nil => rfl
  | cons c rest ih =>
    by_cases hc : c = sep
    · subst hc
      simp [pySplit, List.splitOn, List.splitOnP_cons, List.count_cons] at ih ⊢
      omega
    · simp [pySplit, List.splitOn, List.splitOnP_cons, List.count_cons, hc,
        Ne.symm hc] at ih ⊢
      omega

/-! ## C6: address parsing -/

/-- C6: `parse_ip` on a string without a colon returns the string itself as
the address and no port; on `host ++ ':' ++ port` (one colon, numeric port) it
returns the host and the integer port; on a string with more than one colon it
raises `ValueError`. -/
theorem C6_parse_ip (s h p : Str) (n : Int) :
    (':' ∉ s → parse_ip s = .ok ⟨s, none⟩) ∧
    (':' ∉ h → ':' ∉ p → pyInt? p = some n →
      parse_ip (h ++ ':' :: p) = .ok ⟨h, some n⟩) ∧
    (2 ≤ s.count ':' → parse_ip s = .error .valueError) := by
  refine ⟨?_, ?_, ?_⟩
  · intro hs
    simp [parse_ip, pySplit_no_sep ':' s hs]
  · intro hh hp hint
    rw [parse_ip, pySplit_first ':' h p hh, pySplit_no_sep ':' p hp]
    simp [hint]
  · intro hs
    have hlen : 3 ≤ (pySplit ':' s).length := by
      rw [pySplit_length]
      omega
    obtain ⟨a, b, c, t, he⟩ : ∃ a b c t, pySplit ':' s = a :: b :: c :: t := by
      match e : pySplit ':' s with
      | [] => rw [e] at hlen; simp at hlen
      | [a] => rw [e] at hlen; simp at hlen
      | [a, b] => rw [e] at hlen; simp at hlen
      | a :: b :: c :: t => exact ⟨a, b, c, t, rfl⟩
    rw [parse_ip, he]

/-- Witness for C6 at the spec's three concrete inputs. -/
theorem C6_parse_ip_witness :
    parse_ip ("10.0.0.1").toList = .ok ⟨("10.0.0.1").toList, none⟩ ∧
    parse_ip (("10.0.0.1").toList ++ ':' :: ("2222").toList) =
      .ok ⟨("10.0.0.1").toList, some 2222⟩ ∧
    parse_ip ("10.0.0.1:2222:3").toList = .error .valueError := by
  refine ⟨?_, ?_, ?_⟩
  · exact (C6_parse_ip (("10.0.0.1").toList) [] [] 0).1 (by decide)
  · exact (C6_parse_ip [] (("10.0.0.1").toList) (("2222").toList) 2222).2.1
      (by decide) (by decide) (by decide)
  · exact (C6_parse_ip (("10.0.0.1:2222:3").toList) [] [] 0).2.2 (by decide)

/-! ## C7: stderr warning filtering -/

/-- Counterexample to C7 as stated: on a captured stderr whose `'\n'`-separated
lines are a host-key warning followed by the real error line `err`, the code
(which splits on `'\r'`, not `'\n'`) treats the whole capture as one piece
starting with the warning prefix and drops it entirely, so the non-warning
line `err` is not preserved in the result (the result is a single empty
line). -/
theorem C7_counterexample :
    ("err").toList ∈ pySplit '\n' c7_input ∧
    warningPfx.isPrefixOf (("err").toList) = false ∧
    result_stderr c7_input = [[]] ∧
    ("err").toList ∉ result_stderr c7_input := by
  refine ⟨by decide, by decide, by decide, by decide⟩

/-- C7 amended: the code delimits "lines" of the captured stderr by `'\r'`
(not `'\n'`). When the captured stderr is a sequence of `'\r'`-separated lines
none of which contains `'\r'` or `'\n'`, and at least one line does not start
with the host-key warning prefix, the result's stderr sequence is exactly the
non-warning lines, verbatim and in their original order. -/
theorem C7_strip_warnings (lines : List Str)
    (hr : ∀ l ∈ lines, '\r' ∉ l)
    (hn : ∀ l ∈ lines, '\n' ∉ l)
    (hs : ∃ l ∈ lines, warningPfx.isPrefixOf l = false) :
    result_stderr (pyJoin '\r' lines) =
      lines.filter (fun l => ¬ warningPfx.isPrefixOf l) := by
  have hne : lines ≠ [] := by
    rintro rfl
    obtain ⟨l, hl, -⟩ := hs
    exact absurd hl (List.not_mem_nil l)
  rw [result_stderr, strip_host_key_warnings, pySplit_pyJoin '\r' lines hr hne]
  set filtered := lines.filter (fun l => ¬ warningPfx.isPrefixOf l) with hf
  have hfn : ∀ l ∈ filtered, '\n' ∉ l := fun l hl => hn l (List.mem_of_mem_filter hl)
  have hfne : filtered ≠ [] := by
    obtain ⟨l, hl, hw⟩ := hs
    have : l ∈ filtered := by
      rw [hf, List.mem_filter]
      exact ⟨hl, by simp [hw]⟩
    rintro he
    rw [he] at this
    exact absurd this (List.not_mem_nil l)
  exact pySplit_pyJoin '\n' filtered hfn hfne

/-- Witness for C7 amended: a warning line followed by `err`, separated by
`'\r'`, filters to exactly `[err]`. -/
theorem C7_strip_warnings_witness :
    result_stderr (pyJoin '\r' [("Warning: Permanently added 'h'").toList, ("err").toList]) =
      [("err").toList] :=
  (C7_strip_warnings [("Warning: Permanently added 'h'").toList, ("err").toList]
    (by decide) (by decide) ⟨("err").toList, by decide, by decide⟩).trans (by decide)

/-! ## C8: parameterized interpolation -/

theorem pyFormatAux_none_cons (tags : List (Str × Str)) (c : Char) (rest : Str) :
    pyFormatAux tags none (c :: rest) =
      if c = lbrace then pyFormatAux tags (some []) rest
      else if c = rbrace then .error .valueError
      else (pyFormatAux tags none rest).map (c :: ·) := rfl

theorem pyFormatAux_some_cons (tags : List (Str × Str)) (acc : Str) (c : Char) (rest : Str) :
    pyFormatAux tags (some acc) (c :: rest) =
      if c = rbrace then
        (match pyGet tags acc with
         | some v => (pyFormatAux tags none rest).map (v ++ ·)
         | none => .error .keyError)
      else pyFormatAux tags (some (acc ++ [c])) rest := rfl

theorem pyFormatAux_lit (tags : List (Str × Str)) (s : Str) (hs : braceFree s = true)
    (r : Str) :
    pyFormatAux tags none (s ++ r) = (pyFormatAux tags none r).map (s ++ ·) := by
  induction s with
  | nil =>
    cases h : pyFormatAux tags none r <;> simp [Except.map, h]
  | cons c s ih =>
    simp only [braceFree, List.all_cons, Bool.and_eq_true, decide_eq_true_eq] at hs
    obtain ⟨⟨hc1, hc2⟩, hrest⟩ := hs
    rw [List.cons_append, pyFormatAux_none_cons, if_neg hc1, if_neg hc2, ih hrest]
    cases h : pyFormatAux tags none r <;> simp [Except.map, h]

theorem pyFormatAux_field (tags : List (Str × Str)) (n : Str) (hn : braceFree n = true)
    (acc r : Str) :
    pyFormatAux tags (some acc) (n ++ rbrace :: r) =
      (match pyGet tags (acc ++ n) with
       | some v => (pyFormatAux tags none r).map (v ++ ·)
       | none => .error .keyError) := by
  induction n generalizing acc with
  | nil =>
    simp [pyFormatAux_some_cons]
  | cons c n ih =>
    simp only [braceFree, List.all_cons, Bool.and_eq_true, decide_eq_true_eq] at hn
    obtain ⟨⟨-, hc2⟩, hrest⟩ := hn
    rw [List.cons_append, pyFormatAux_some_cons, if_neg hc2, ih hrest (acc ++ [c])]
    simp [List.append_assoc]

theorem pyFormat_render_ok (tags : List (Str × Str)) (t : List Tpl)
    (hok : tplOk t = true) (hall : ∀ n ∈ tplNames t, (pyGet tags n).isSome = true)
    (r : Str) :
    pyFormatAux tags none (renderTpl t ++ r) =
      (pyFormatAux tags none r).map (interpTpl tags t ++ ·) := by
  induction t generalizing r with
  | nil =>
    cases h : pyFormatAux tags none r <;> simp [renderTpl, interpTpl, Except.map, h]
  | cons hd t ih =>
    match hd with
    | .lit s =>
      simp only [tplOk, Bool.and_eq_true] at hok
      have hnames : ∀ n ∈ tplNames t, (pyGet tags n).isSome = true := by
        intro n hn
        exact hall n (by simpa [tplNames] using hn)
      rw [renderTpl, List.append_assoc, pyFormatAux_lit tags s hok.1 _, ih hok.2 hnames r]
      cases h : pyFormatAux tags none r <;> simp [interpTpl, Except.map, h, List.append_assoc]
    | .ph n =>
      simp only [tplOk, Bool.and_eq_true] at hok
      have hn : (pyGet tags n).isSome = true := hall n (by simp [tplNames])
      have hnames : ∀ m ∈ tplNames t, (pyGet tags m).isSome = true := by
        intro m hm
        exact hall m (by simp [tplNames, hm])
      obtain ⟨v, hv⟩ := Option.isSome_iff_exists.mp hn
      rw [renderTpl, List.cons_append, List.append_assoc, List.cons_append,
        pyFormatAux_none_cons, if_pos rfl, pyFormatAux_field tags n hok.1 [] _,
        List.nil_append, hv, ih hok.2 hnames r]
      cases h : pyFormatAux tags none r <;>
        simp [interpTpl, hv, Except.map, h, List.append_assoc]

theorem pyFormat_render_missing (tags : List (Str × Str)) (t : List Tpl)
    (hok : tplOk t = true) (hmiss : ∃ n ∈ tplNames t, pyGet tags n = none) :
    pyFormatAux tags none (renderTpl t) = .error .keyError := by
  induction t with
  | nil =>
    obtain ⟨n, hn, -⟩ := hmiss
    exact absurd hn (List.not_mem_nil n)
  | cons hd t ih =>
    match hd with
    | .lit s =>
      simp only [tplOk, Bool.and_eq_true] at hok
      have hm : ∃ n ∈ tplNames t, pyGet tags n = none := by
        simpa [tplNames] using hmiss
      rw [renderTpl, pyFormatAux_lit tags s hok.1 _, ih hok.2 hm]
      rfl
    | .ph n =>
      simp only [tplOk, Bool.and_eq_true] at hok
      rw [renderTpl, pyFormatAux_none_cons, if_pos rfl,
        pyFormatAux_field tags n hok.1 [] _, List.nil_append]
      cases hv : pyGet tags n with
      | none => rfl
      | some v =>
        have hm : ∃ m ∈ tplNames t, pyGet tags m = none := by
          obtain ⟨m, hm, hmn⟩ := hmiss
          simp only [tplNames, List.mem_cons] at hm
          rcases hm with rfl | hm
          · rw [hv] at hmn
            exact absurd hmn (by simp)
          · exact ⟨m, hm, hmn⟩
        rw [ih hok.2 hm]
        rfl

theorem pyFormat_render (tags : List (Str × Str)) (t : List Tpl)
    (hok : tplOk t = true) (hall : ∀ n ∈ tplNames t, (pyGet tags n).isSome = true) :
    pyFormat tags (renderTpl t) = .ok (interpTpl tags t) := by
  have h := pyFormat_render_ok tags t hok hall []
  rw [List.append_nil] at h
  rw [pyFormat, h]
  simp [pyFormatAux, Except.map]

theorem mapM_render_ok (tags : List (Str × Str)) (ts : List (List Tpl))
    (hok : ∀ t ∈ ts, tplOk t = true)
    (hall : ∀ t ∈ ts, ∀ n ∈ tplNames t, (pyGet tags n).isSome = true) :
    (ts.map renderTpl).mapM (pyFormat tags) = .ok (ts.map (interpTpl tags)) := by
  induction ts with
  | nil => rfl
  | cons t ts ih =>
    simp only [List.map_cons, List.mapM_cons]
    rw [pyFormat_render tags t (hok t (List.mem_cons_self t ts)) (hall t (List.mem_cons_self t ts)),
      ih (fun t' h => hok t' (List.mem_cons_of_mem t h))
         (fun t' h => hall t' (List.mem_cons_of_mem t h))]
    rfl

theorem mapM_render_missing (tags : List (Str × Str)) (ts : List (List Tpl))
    (hok : ∀ t ∈ ts, tplOk t = true)
    (hmiss : ∃ t ∈ ts, ∃ n ∈ tplNames t, pyGet tags n = none) :
    (ts.map renderTpl).mapM (pyFormat tags) = .error .keyError := by
  induction ts with
  | nil =>
    obtain ⟨t, ht, -⟩ := hmiss
    exact absurd ht (List.not_mem_nil t)
  | cons t ts ih =>
    simp only [List.map_cons, List.mapM_cons]
    by_cases hall : ∀ n ∈ tplNames t, (pyGet tags n).isSome = true
    · have hm : ∃ t' ∈ ts, ∃ n ∈ tplNames t', pyGet tags n = none := by
        obtain ⟨t', ht', n, hn, hmn⟩ := hmiss
        rcases List.mem_cons.mp ht' with rfl | h
        · have := hall n hn
          rw [hmn] at this
          exact absurd this (by simp)
        · exact ⟨t', h, n, hn, hmn⟩
      rw [pyFormat_render tags t (hok t (List.mem_cons_self t ts)) hall,
        ih (fun t' h => hok t' (List.mem_cons_of_mem t h)) hm]
      rfl
    · have hm : ∃ n ∈ tplNames t, pyGet tags n = none := by
        push_neg at hall
        obtain ⟨n, hn, h2⟩ := hall
        cases o : pyGet tags n with
        | none => exact ⟨n, hn, o⟩
        | some v => exact absurd (by simp [o]) h2
      have : pyFormat tags (renderTpl t) = .error .keyError :=
        pyFormat_render_missing tags t (hok t (List.mem_cons_self t ts)) hm
      rw [this]
      rfl

/-- C8: for every node and parameterized command given as well-formed argument
templates, `_make_ssh` interpolates each argument's `\x7btag\x7d` placeholders
from the node's tags before producing the argv; when every referenced tag is
present the argv contains exactly the interpolated arguments, and when any
argument references a tag name absent from the node's tags the construction
raises `KeyError` instead of substituting anything. -/
theorem C8_make_ssh_interpolation (b : CommandBuilder) (node : Node)
    (base_args : List Str) (ts : List (List Tpl))
    (hok : ∀ t ∈ ts, tplOk t = true) :
    ((∀ t ∈ ts, ∀ n ∈ tplNames t, (pyGet node.tags n).isSome = true) →
      b.make_ssh node base_args (ts.map renderTpl) true =
        .ok (("ssh").toList :: base_args ++ [b.default_user ++ '@' :: node.ip] ++
          ts.map (interpTpl node.tags))) ∧
    ((∃ t ∈ ts, ∃ n ∈ tplNames t, pyGet node.tags n = none) →
      b.make_ssh node base_args (ts.map renderTpl) true = .error .keyError) := by
  constructor
  · intro hall
    show ((ts.map renderTpl).mapM (pyFormat node.tags)).bind _ = _
    rw [mapM_render_ok node.tags ts hok hall]
    rfl
  · intro hmiss
    show ((ts.map renderTpl).mapM (pyFormat node.tags)).bind _ = _
    rw [mapM_render_missing node.tags ts hok hmiss]
    rfl

/-- Witness for C8: with the tag `role ↦ master` present the placeholder is
interpolated into the argv; with an empty tags dict the same command raises
`KeyError`. -/
theorem C8_make_ssh_witness :
    ((CommandBuilder.mk (("centos").toList) none (("key").toList) []).make_ssh node1 []
        ([[Tpl.lit (("--role=").toList), Tpl.ph (("role").toList)]].map renderTpl) true =
      .ok [("ssh").toList, ("centos@10.0.0.1").toList, ("--role=master").toList]) ∧
    ((CommandBuilder.mk (("centos").toList) none (("key").toList) []).make_ssh
        (Node.mk [] host2 none) []
        ([[Tpl.lit (("--role=").toList), Tpl.ph (("role").toList)]].map renderTpl) true =
      .error .keyError) := by
  constructor
  · exact ((C8_make_ssh_interpolation (CommandBuilder.mk (("centos").toList) none
      (("key").toList) []) node1 [] [[Tpl.lit (("--role=").toList), Tpl.ph (("role").toList)]]
      (by decide)).1 (by decide)).trans (by decide)
  · exact (C8_make_ssh_interpolation (CommandBuilder.mk (("centos").toList) none
      (("key").toList) []) (Node.mk [] host2 none) []
      [[Tpl.lit (("--role=").toList), Tpl.ph (("role").toList)]] (by decide)).2
      ⟨[Tpl.lit (("--role=").toList), Tpl.ph (("role").toList)], by decide,
        ("role").toList, by decide, by decide⟩

/-! ## C1: initialize/checkpoint/reload round trip -/

/-- C1 fails on the code: with the non-empty public-agent list `[host2]`, the
source's `add_all(agent_public_list, \x7b'role', 'slave_public'\x7d)` passes a
set literal as tags, `Node.__init__`'s `isinstance(tags, dict)` assert raises,
and `initialize` aborts before `checkpoint`: the file content stays `none`, so
no store can reload the record and the round trip cannot even start. -/
theorem C1_roundtrip_fails_on_public_agents :
    (InstallStatus.initialise fresh_store none [host1] [] [host2]
        (("f00d").toList)).1 = some PyErr.assertionError ∧
    (InstallStatus.initialise fresh_store none [host1] [] [host2]
        (("f00d").toList)).2.2 = none := by
  refine ⟨by decide, by decide⟩

/-! ## C2: mark_skip -/

/-- C2 fails on the code: `host2` is known to the store, its recorded stage
equals the record's current stage and its skip flag (`false`) differs from the
requested value `true`, yet `mark_skip` does not record the new flag — it
raises `AttributeError`, because `HostState` is a `namedtuple` and
`host.skip = skip_state` is a field assignment on an immutable tuple. The
stage-mismatch half of the claim behaves as stated. -/
theorem C2_mark_skip_raises_despite_current_stage :
    (pyGet sample_store.hosts host2).map HostState.stage =
      sample_store.current_stage ∧
    (pyGet sample_store.hosts host2).map HostState.skip = some false ∧
    sample_store.mark_skip host2 true = (some PyErr.attributeError, sample_store) := by
  refine ⟨by decide, by decide, by decide⟩

/-! ## C3: initialize with an existing state file -/

/-- C3: whenever a persisted state file already exists (`some j`),
`initialize` raises immediately and returns with the store and the file
exactly as they were: no host entries are added and nothing is written. -/
theorem C3_init_existing_file (st : InstallStatus) (j : RunJson)
    (m a p : List Str) (fresh_id : Str) :
    InstallStatus.initialise st (some j) m a p fresh_id =
      (some PyErr.exception, st, some j) := rfl

/-! ## C4: get_active_nodes -/

/-- C4 fails on the code: `host1` is recorded as skipped, yet its node is in
the list `get_active_nodes` returns, because the source's `if state.skip:
pass` does nothing and every host's node is appended. -/
theorem C4_get_active_nodes_returns_skipped :
    (pyGet sample_store.hosts host1).map HostState.skip = some true ∧
    node1 ∈ sample_store.get_active_nodes ∧
    sample_store.get_active_nodes = [node1, node2] := by
  refine ⟨by decide, by decide, by decide⟩

/-! ## C5: update -/

/-- C5 fails on the code for known hosts: `host2` is in the store, yet
`update` does not set its stage and step — it raises `AttributeError`,
because `HostState` is a `namedtuple` and `self._hosts[host_id].stage = stage`
is a field assignment on an immutable tuple. (For an unknown id the claim's
error half does hold: the `assert host_id in self._hosts` raises.) -/
theorem C5_update_raises_on_known_host :
    (pyGet sample_store.hosts host2).isSome = true ∧
    sample_store.update host2 (("preflight").toList) (("preflight").toList) =
      (some PyErr.attributeError, sample_store) ∧
    sample_store.update (("10.9.9.9").toList) (("preflight").toList)
        (("preflight").toList) = (some PyErr.assertionError, sample_store) := by
  refine ⟨by decide, by decide, by decide⟩

/-! ## C10: initialize with public agents always raises -/

theorem add_all_set_raises (st : InstallStatus) (h : Str) (t : List Str)
    (xs : List Str) :
    InstallStatus.add_all st (h :: t) (.set xs) = (some PyErr.assertionError, st) := by
  rw [InstallStatus.add_all]
  split
  · rfl
  · rfl

/-- C10: every call to `initialize` with a non-empty `agent_public_list`
raises before completing — the public agents' tags are the set literal
`\x7b'role', 'slave_public'\x7d` and `Node.__init__` asserts its tags argument
is a dict — so `initialize` can only complete when `agent_public_list` is
empty. -/
theorem C10_init_public_agents_raises (st : InstallStatus) (fs : Option RunJson)
    (m a p : List Str) (fresh_id : Str) (hp : p ≠ []) :
    (InstallStatus.initialise st fs m a p fresh_id).1.isSome = true := by
  match p, hp with
  | h :: t, _ =>
    rw [InstallStatus.initialise]
    by_cases hfs : fs.isSome
    · rw [if_pos hfs]
      rfl
    · rw [if_neg hfs]
      set X1 := PyTags.dict [(("role").toList, ("master").toList)] with hX1
      set X2 := PyTags.dict [(("role").toList, ("slave").toList)] with hX2
      rcases e1 : InstallStatus.add_all st m X1 with ⟨o1, st1⟩
      cases o1 with
      | some e => simp [e1]
      | none =>
        rcases e2 : InstallStatus.add_all st1 a X2 with ⟨o2, st2⟩
        cases o2 with
        | some e => simp [e1, e2]
        | none => simp [e1, e2, add_all_set_raises]

/-- Witness for C10 on a fresh store with one public agent. -/
theorem C10_init_public_agents_witness :
    (InstallStatus.initialise fresh_store none [host1] [] [host2]
        (("f00d").toList)).1.isSome = true :=
  C10_init_public_agents_raises fresh_store none [host1] [] [host2]
    (("f00d").toList) (by decide)

/-! ## C9: bounded parallelism and in-order chains (spec-modelled) -/

theorem dispatchStep_preserves_inv {α : Type} (P : Nat) (s s' : DispatchState α)
    (hstep : DispatchStep P s s') (hinv : dispatchInv P s) : dispatchInv P s' := by
  obtain ⟨hlen, hrun, hfin⟩ := hinv
  cases hstep with
  | start h as rest hle hpend =>
    refine ⟨?_, ?_, hfin⟩
    · simpa using hle
    · intro c hc
      rcases List.mem_append.mp hc with hc | hc
      · exact hrun c hc
      · rcases List.mem_singleton.mp hc with rfl
        simp
  | exec l r c a rem hsplit hrem =>
    refine ⟨?_, ?_, hfin⟩
    · simpa [hsplit] using hlen
    · intro c' hc'
      simp only [List.mem_append, List.mem_cons] at hc'
      rcases hc' with hc' | rfl | hc'
      · exact hrun c' (by simp [hsplit, hc'])
      · have hc : c.trace ++ c.remaining = c.orig := hrun c (by simp [hsplit])
        show c.trace ++ [a] ++ rem = c.orig
        rw [List.append_assoc]
        simpa [hrem] using hc
      · exact hrun c' (by simp [hsplit, hc'])
  | finish l r c hsplit hrem =>
    refine ⟨?_, ?_, ?_⟩
    · rw [hsplit] at hlen
      simp only [List.length_append, List.length_cons] at hlen
      simp only [List.length_append]
      omega
    · intro c' hc'
      rcases List.mem_append.mp hc' with hc' | hc'
      · exact hrun c' (by simp [hsplit, hc'])
      · exact hrun c' (by simp [hsplit, hc'])
    · intro f hf
      rcases List.mem_append.mp hf with hf | hf
      · exact hfin f hf
      · rcases List.mem_singleton.mp hf with rfl
        have hc : c.trace ++ c.remaining = c.orig := hrun c (by simp [hsplit])
        simpa [hrem] using hc

/-- C9 (spec-modelled — `Dispatcher.dispatch` in the source is `raise
NotImplementedError()`, so the scheduling contract of spec §4.2/§5 is
modelled as the transition system above): in every state a dispatch with
parallelism `P ≥ 1` can reach, at most `P` chains are executing concurrently,
and each host's chain has executed exactly a prefix of its actions in the
order they were appended (finished chains executed all of them, in order). -/
theorem C9_dispatch_bounded (P : Nat) {α : Type} (chains : List (Str × List α))
    (s : DispatchState α) (_hP : 1 ≤ P) (hreach : DispatchReachable P chains s) :
    s.running.length ≤ P ∧
    (∀ c ∈ s.running, c.trace ++ c.remaining = c.orig) ∧
    (∀ f ∈ s.finished, f.2.2 = f.2.1) := by
  have hinv : dispatchInv P s := by
    induction hreach with
    | refl =>
      exact ⟨by simp [dispatchInit], by simp [dispatchInit], by simp [dispatchInit]⟩
    | tail hab hbc ih =>
      exact dispatchStep_preserves_inv P _ _ hbc ih
  exact hinv

/-- Witness for C9: the state after starting the single pending chain under
parallelism 1 has at most one chain running, and that chain's trace and
remaining actions compose to its original chain. -/
theorem C9_dispatch_bounded_witness :
    (DispatchState.mk (α := Nat) [] [RunningChain.mk host1 [7] [] [7]] []).running.length ≤ 1 :=
  (C9_dispatch_bounded 1 [(host1, [7])]
    (DispatchState.mk [] [RunningChain.mk host1 [7] [] [7]] []) (by decide)
    (Relation.ReflTransGen.single
      (DispatchStep.start host1 [7] [] (by simp [dispatchInit]) rfl))).1

/-! ## The intended C1 round trip, proved for the case `initialize` can
actually complete (empty public-agent list; see `C1` and `C10`) -/

theorem pyGet_append {α : Type} (l1 l2 : List (Str × α)) (k : Str) :
    pyGet (l1 ++ l2) k =
      (match pyGet l1 k with
       | some v => some v
       | none => pyGet l2 k) := by
  induction l1 with
  | nil => rfl
  | cons p l1 ih =>
    obtain ⟨k', v⟩ := p
    show (if k' = k then some v else pyGet (l1 ++ l2) k) =
      (match (if k' = k then some v else pyGet l1 k) with
       | some v => some v
       | none => pyGet l2 k)
    by_cases hk : k' = k
    · rw [if_pos hk, if_pos hk]
    · rw [if_neg hk, if_neg hk, ih]

theorem pyGet_eq_none_iff {α : Type} (d : List (Str × α)) (k : Str) :
    pyGet d k = none ↔ k ∉ d.map Prod.fst := by
  induction d with
  | nil => simp [pyGet]
  | cons p d ih =>
    obtain ⟨k', v⟩ := p
    show (if k' = k then some v else pyGet d k) = none ↔ k ∉ k' :: d.map Prod.fst
    by_cases hk : k' = k
    · subst hk
      rw [if_pos rfl]
      simp only [List.mem_cons, not_or]
      constructor
      · intro hs
        exact absurd hs (Option.some_ne_none v)
      · intro hmem
        exact absurd trivial hmem.1
    · rw [if_neg hk]
      simp only [List.mem_cons, not_or, ih]
      constructor
      · intro hn
        exact ⟨fun he => hk he.symm, hn⟩
      · intro hn
        exact hn.2

theorem add_all_preserves_frame (st : InstallStatus) (hl : List Str) (tags : PyTags)
    (o : Option PyErr) (st1 : InstallStatus)
    (h : InstallStatus.add_all st hl tags = (o, st1)) :
    st1.json_dump_filename = st.json_dump_filename ∧ st1.run_mode = st.run_mode ∧
      st1.current_stage = st.current_stage ∧ st1.run_id = st.run_id := by
  induction hl generalizing st with
  | nil =>
    rw [InstallStatus.add_all] at h
    cases h
    exact ⟨rfl, rfl, rfl, rfl⟩
  | cons host_id rest ih =>
    rw [InstallStatus.add_all] at h
    by_cases hmem : (pyGet st.hosts host_id).isSome
    · rw [if_pos hmem] at h
      cases h
      exact ⟨rfl, rfl, rfl, rfl⟩
    · rw [if_neg hmem] at h
      cases hnode : Node.make host_id tags with
      | error e =>
        simp only [hnode] at h
        cases h
        exact ⟨rfl, rfl, rfl, rfl⟩
      | ok node =>
        simp only [hnode] at h
        exact ih { st with hosts :=
          st.hosts ++ [(host_id, ⟨pre_marker, pre_marker, false, tags, node⟩)] } h

theorem add_all_good (st : InstallStatus) (hl : List Str) (tags : PyTags)
    (st1 : InstallStatus)
    (h : InstallStatus.add_all st hl tags = (none, st1))
    (hg : goodHosts st.hosts) : goodHosts st1.hosts := by
  induction hl generalizing st with
  | nil =>
    rw [InstallStatus.add_all] at h
    cases h
    exact hg
  | cons host_id rest ih =>
    rw [InstallStatus.add_all] at h
    by_cases hmem : (pyGet st.hosts host_id).isSome
    · rw [if_pos hmem] at h
      cases h
    · rw [if_neg hmem] at h
      have hnotin : host_id ∉ st.hosts.map Prod.fst :=
        (pyGet_eq_none_iff st.hosts host_id).mp (Option.not_isSome_iff_eq_none.mp hmem)
      cases hnode : Node.make host_id tags with
      | error e =>
        simp only [hnode] at h
        cases h
      | ok node =>
        simp only [hnode] at h
        refine ih { st with hosts :=
          st.hosts ++ [(host_id, ⟨pre_marker, pre_marker, false, tags, node⟩)] } h ⟨?_, ?_⟩
        · refine List.pairwise_append.mpr ⟨hg.1, by simp, ?_⟩
          intro p hp q hq
          rcases List.mem_singleton.mp hq with rfl
          intro he
          apply hnotin
          have hm := List.mem_map_of_mem Prod.fst hp
          rw [show p.1 = host_id from he] at hm
          exact hm
        · intro p hp
          rcases List.mem_append.mp hp with hp | hp
          · exact hg.2 p hp
          · rcases List.mem_singleton.mp hp with rfl
            exact hnode

theorem load_hosts_reconstruct (entries acc : List (Str × HostState))
    (hgood : ∀ p ∈ entries, Node.make p.1 p.2.tags = .ok p.2.node)
    (hdis : ∀ p ∈ entries, pyGet acc p.1 = none)
    (hpair : entries.Pairwise (fun p q => p.1 ≠ q.1)) :
    (entries.map (fun p => HostJson.mk p.1 p.2.stage p.2.step p.2.skip p.2.tags)).foldlM
      (fun acc h => do
        let node ← Node.make h.id h.tags
        pure (pyDictSet acc h.id ⟨h.stage, h.step, h.skip, h.tags, node⟩))
      acc = Except.ok (acc ++ entries) := by
  induction entries generalizing acc with
  | nil =>
    rw [List.map_nil, List.foldlM_nil, List.append_nil]
    rfl
  | cons p rest ih =>
    simp only [List.map_cons, List.foldlM_cons]
    rw [hgood p (List.mem_cons_self p rest)]
    show (rest.map _).foldlM _
      (pyDictSet acc p.1 ⟨p.2.stage, p.2.step, p.2.skip, p.2.tags, p.2.node⟩) = _
    rw [pyDictSet, if_neg (by
      rw [Option.not_isSome_iff_eq_none]
      exact hdis p (List.mem_cons_self p rest))]
    have hrest : ∀ q ∈ rest, Node.make q.1 q.2.tags = .ok q.2.node :=
      fun q hq => hgood q (List.mem_cons_of_mem p hq)
    have hdis' : ∀ q ∈ rest,
        pyGet (acc ++ [(p.1, ⟨p.2.stage, p.2.step, p.2.skip, p.2.tags, p.2.node⟩)]) q.1 =
          none := by
      intro q hq
      have h2 : p.1 ≠ q.1 := List.rel_of_pairwise_cons hpair hq
      rw [pyGet_append, hdis q (List.mem_cons_of_mem p hq)]
      show (if p.1 = q.1 then
          some (HostState.mk p.2.stage p.2.step p.2.skip p.2.tags p.2.node)
        else pyGet [] q.1) = none
      rw [if_neg h2]
      rfl
    have hstep := ih (acc ++ [(p.1, ⟨p.2.stage, p.2.step, p.2.skip, p.2.tags, p.2.node⟩)])
      hrest hdis' (List.Pairwise.of_cons hpair)
    rw [hstep, List.append_assoc]
    rfl

theorem load_from_fresh (fname rm : Str) (cs rid : Option Str)
    (hosts0 : List (Str × HostState)) (hg : goodHosts hosts0) :
    InstallStatus.make fname rm (some ⟨rm, cs, rid,
        hosts0.map (fun p => ⟨p.1, p.2.stage, p.2.step, p.2.skip, p.2.tags⟩)⟩) =
      .ok ⟨fname, rm, hosts0, cs, rid⟩ := by
  have hfold := load_hosts_reconstruct hosts0 [] hg.2 (fun p _ => rfl) hg.1
  show InstallStatus.load_from ⟨fname, rm, [], none, none⟩ _ = _
  simp only [InstallStatus.load_from, hfold, ne_eq, List.nil_append]
  simp

/-- The round trip of spec §8 in the only case the code can complete it
(`agent_public_list = []`, see `C1` and `C10`): when `initialize` on a fresh
store succeeds, producing object state `st'` and file content `j`,
constructing a new store over the same file reconstructs the record exactly —
same `run_mode`, same `run_id`, same `current_stage`, and the identical hosts
dict (hence, for every host id, the same stage, step, skip flag and tags). -/
theorem init_checkpoint_reload (fname rm : Str) (m a : List Str) (fid : Str)
    (st' : InstallStatus) (j : RunJson)
    (h : InstallStatus.initialise ⟨fname, rm, [], none, none⟩ none m a [] fid =
      (none, st', some j)) :
    InstallStatus.make fname rm (some j) =
      .ok ⟨fname, rm, st'.hosts, st'.current_stage, st'.run_id⟩ := by
  rw [InstallStatus.initialise] at h
  rw [if_neg (by simp)] at h
  rcases e1 : InstallStatus.add_all ⟨fname, rm, [], none, none⟩ m
      (.dict [(("role").toList, ("master").toList)]) with ⟨o1, st1⟩
  cases o1 with
  | some e =>
    simp only [e1] at h
    exact absurd h (by simp)
  | none =>
    simp only [e1] at h
    rcases e2 : InstallStatus.add_all st1 a
        (.dict [(("role").toList, ("slave").toList)]) with ⟨o2, st2⟩
    cases o2 with
    | some e =>
      simp only [e2] at h
      exact absurd h (by simp)
    | none =>
      simp only [e2] at h
      have e3 : InstallStatus.add_all st2 []
          (.set [("role").toList, ("slave_public").toList]) = (none, st2) := rfl
      simp only [e3] at h
      cases hck : InstallStatus.checkpoint
          { st2 with current_stage := some pre_marker, run_id := some fid } with
      | error e =>
        simp only [hck] at h
        exact absurd h (by simp)
      | ok j' =>
        simp only [hck, Prod.mk.injEq, Option.some.injEq, true_and] at h
        obtain ⟨hst, hj⟩ := h
        have hf1 := add_all_preserves_frame _ m _ _ _ e1
        have hf2 := add_all_preserves_frame _ a _ _ _ e2
        have hg : goodHosts st2.hosts :=
          add_all_good _ a _ _ e2 (add_all_good _ m _ _ e1 ⟨List.Pairwise.nil, by simp⟩)
        have hrm : st2.run_mode = rm := by
          rw [hf2.2.1, hf1.2.1]
        rw [InstallStatus.checkpoint] at hck
        rw [if_pos (List.all_eq_true.mpr (by
          intro p hp
          have hmk := hg.2 p hp
          cases htag : p.2.tags with
          | dict d => simp [PyTags.isDict]
          | set xs =>
            rw [htag] at hmk
            exact absurd hmk (by rw [Node.make]; simp)))] at hck
        simp only [Except.ok.injEq] at hck
        rw [← hj, ← hck, ← hst]
        show InstallStatus.make fname rm (some (RunJson.mk st2.run_mode (some pre_marker)
            (some fid) (st2.hosts.map (fun p =>
              HostJson.mk p.1 p.2.stage p.2.step p.2.skip p.2.tags)))) =
          .ok ⟨fname, rm, st2.hosts, some pre_marker, some fid⟩
        rw [hrm]
        exact load_from_fresh fname rm (some pre_marker) (some fid) st2.hosts hg
